import Mathlib

/-!
Shallow embedding of the DropSync sync engine (`src/sync_engine.py`,
class `EbaySyncEngine`) and proofs about its reconciliation pipeline:
feed normalization, paginated listing fetch, diff computation, batched
update with partial-failure accounting, and the run-level summary.

Network effects are modelled by oracles: the feed download is an
`Except` value, the listing server is a function from page number to a
raw page response (or a transport error), and the batch-update remote
is a function from a batch to a raw acknowledgment (or a transport
error).  All parsing and control logic is translated directly from the
Python source.
-/

namespace DropSync

/-- A CSV row as produced by `csv.DictReader`: association of column
header to cell text.  Headers are unique in practice; lookup takes the
first match. -/
abbrev Row := List (String × String)

/-- `row.get(key, dflt)` on a `DictReader` row. -/
def rowGet (row : Row) (key dflt : String) : String :=
  match row with
  | [] => dflt
  | (k, v) :: rest => if k = key then v else rowGet rest key dflt

/-- The supplier stock dictionary `{SKU: quantity}`. -/
abbrev StockMap := List (String × Int)

/-- Python dict assignment `d[k] = v`: replace the value at an existing
key in place, otherwise append the new entry. -/
def dictInsert (d : StockMap) (k : String) (v : Int) : StockMap :=
  match d with
  | [] => [(k, v)]
  | (k', v') :: rest =>
    if k' = k then (k, v) :: rest else (k', v') :: dictInsert rest k v

/-- Python dict lookup `d.get(k)` / `d[k]`. -/
def dictGet? (d : StockMap) (k : String) : Option Int :=
  match d with
  | [] => none
  | (k', v) :: rest => if k' = k then some v else dictGet? rest k

/-- Model of Python `str.strip()`: drop leading and trailing
whitespace. -/
def pyStrip (s : String) : String :=
  String.mk (((s.toList.dropWhile Char.isWhitespace).reverse.dropWhile
    Char.isWhitespace).reverse)

/-- Model of Python `str.lower()` (ASCII case folding). -/
def pyLower (s : String) : String :=
  String.mk (s.toList.map Char.toLower)

/-- Value of a run of decimal digit characters. -/
def digitsToNat (l : List Char) : Nat :=
  l.foldl (fun acc c => acc * 10 + (c.toNat - 48)) 0

/-- Unsigned part of a decimal floating-point literal, truncated toward
zero: `digits`, `digits.digits`, `digits.` or `.digits` (at least one
digit in total).  Returns the integer part; `none` when the text is not
such a literal. -/
def unsignedFloatTrunc? (cs : List Char) : Option Nat :=
  let ip := cs.takeWhile (fun c => c ≠ '.')
  match cs.drop ip.length with
  | [] => if ip ≠ [] ∧ ip.all Char.isDigit then some (digitsToNat ip) else none
  | '.' :: fp =>
    if ip.all Char.isDigit ∧ fp.all Char.isDigit ∧ (ip ≠ [] ∨ fp ≠ [])
    then some (digitsToNat ip) else none
  | _ => none

/-- Model of Python `int(float(s))` for a stripped string: parse a signed
decimal literal and truncate toward zero; `none` models the `ValueError`
branch for non-numeric text. -/
def pyFloatTrunc? (s : String) : Option Int :=
  match s.toList with
  | '+' :: rest => (unsignedFloatTrunc? rest).map (fun n => (n : Int))
  | '-' :: rest => (unsignedFloatTrunc? rest).map (fun n => -(n : Int))
  | cs => (unsignedFloatTrunc? cs).map (fun n => (n : Int))

/-- Model of Python `int(s)` for a stripped string: optional sign then
decimal digits; `none` models `ValueError`. -/
def pyIntParse? (s : String) : Option Int :=
  match s.toList with
  | [] => none
  | '+' :: rest =>
    if rest ≠ [] ∧ rest.all Char.isDigit then some (digitsToNat rest) else none
  | '-' :: rest =>
    if rest ≠ [] ∧ rest.all Char.isDigit then some (-(digitsToNat rest : Int)) else none
  | cs => if cs.all Char.isDigit then some (digitsToNat cs) else none

/-- Body of the `azuregreen` row loop in `download_supplier_stock`
(sync_engine.py lines 56-74): SKU from `NUMBER`, quantity from `UNITS`
parsed as float then truncated (0 on `ValueError`), forced to 0 when
`CANTSELL == "1"`, reduced to binary. -/
def azuregreenRow (stock : StockMap) (row : Row) : StockMap :=
  let sku := pyStrip (rowGet row "NUMBER" "")
  let qtyRaw := pyStrip (rowGet row "UNITS" "0")
  let cantSell := pyStrip (rowGet row "CANTSELL" "0")
  if sku = "" then stock
  else
    let qty : Int := (pyFloatTrunc? qtyRaw).getD 0
    let qty : Int := if cantSell = "1" then 0 else qty
    dictInsert stock sku (if qty > 0 then 1 else 0)

/-- Body of the `diecast` row loop in `download_supplier_stock`
(lines 77-93): SKU from `Product ID`, quantity from `Product Visible`
parsed as int, with a token fallback on `ValueError`, reduced to binary. -/
def diecastRow (stock : StockMap) (row : Row) : StockMap :=
  let sku := pyStrip (rowGet row "Product ID" "")
  let qtyRaw := pyStrip (rowGet row "Product Visible" "0")
  if sku = "" then stock
  else
    let qty : Int :=
      match pyIntParse? qtyRaw with
      | some n => n
      | none =>
        if (pyLower qtyRaw) = "yes" ∨ (pyLower qtyRaw) = "true"
           ∨ (pyLower qtyRaw) = "1" ∨ (pyLower qtyRaw) = "available" then 1 else 0
    dictInsert stock sku (if qty > 0 then 1 else 0)

/-- Body of the `custom` row loop in `download_supplier_stock`
(lines 97-110): column names from the mapping dict with defaults
`"SKU"`/`"Quantity"`, float-parse-truncate, reduced to binary. -/
def customRow (cm : Row) (stock : StockMap) (row : Row) : StockMap :=
  let sku := pyStrip (rowGet row (rowGet cm "sku_column" "SKU") "")
  let qtyRaw := pyStrip (rowGet row (rowGet cm "quantity_column" "Quantity") "0")
  if sku = "" then stock
  else
    let qty : Int := (pyFloatTrunc? qtyRaw).getD 0
    dictInsert stock sku (if qty > 0 then 1 else 0)

/-- Python truthiness of the optional `column_mapping` dict: `None` and
the empty dict are falsy. -/
def mappingTruthy : Option Row → Bool
  | none => false
  | some m => m ≠ []

/-- The parsing portion of `download_supplier_stock` (lines 51-113):
dispatch on `feed_type` and fold the row-processing body over the CSV
rows, starting from the empty dict.  An unrecognized feed type, or
`custom` with a falsy mapping, takes no branch and returns the empty
dict. -/
def parseSupplierFeed (feedType : String) (columnMapping : Option Row)
    (rows : List Row) : StockMap :=
  if feedType = "azuregreen" then rows.foldl azuregreenRow []
  else if feedType = "diecast" then rows.foldl diecastRow []
  else if feedType = "custom" ∧ mappingTruthy columnMapping then
    rows.foldl (customRow (columnMapping.getD [])) []
  else []

/-- Errors that can cross a step boundary inside the engine: a failed
feed download (`requests` exception in `download_supplier_stock`), a
transport failure on a remote API call, or a rejected acknowledgment
(the `RuntimeError` raised in `_fetch_listings_page`, carrying the
(code, message) pairs). -/
inductive SyncError where
  | feedFetch (msg : String)
  | transport (msg : String)
  | protocol (call : String) (errs : List (String × String))
deriving Repr, DecidableEq

/-- Model of `str(e)` as used to fill `error_message`. -/
def errorDescription : SyncError → String
  | .feedFetch m => m
  | .transport m => m
  | .protocol call errs =>
    call ++ " failed: " ++ String.intercalate "; " (errs.map (fun p => p.1 ++ " " ++ p.2))

/-- `download_supplier_stock` (lines 41-113): the HTTP download is the
oracle `feedDl`; a transport or non-2xx failure is its `.error` case.
On success the body parses the rows as above. -/
def download_supplier_stock (feedDl : Except SyncError (List Row))
    (feedType : String) (columnMapping : Option Row) :
    Except SyncError StockMap := do
  let rows ← feedDl
  pure (parseSupplierFeed feedType columnMapping rows)

/-- One `<Errors>` block of a `GetSellerList` response. -/
structure RawError where
  code : String
  longMessage : String
  shortMessage : String
deriving Repr, DecidableEq

/-- One `<Item>` of a `GetSellerList` response, after XML extraction:
`ItemID`, `SKU`, `SellingStatus/ListingStatus`, and the two quantity
fields (absent element or empty text modelled as `none`). -/
structure RawItem where
  itemId : String
  sku : String
  listingStatus : String
  quantity : Option Int
  quantitySold : Option Int
deriving Repr, DecidableEq

/-- A parsed `GetSellerList` page response: acknowledgment, error
blocks, item array, `PaginationResult/TotalNumberOfPages` (absent block
modelled as `none`), and the text of `HasMoreItems`. -/
structure RawPage where
  ack : String
  errors : List RawError
  items : List RawItem
  totalPages : Option Int
  hasMoreText : Option String
deriving Repr, DecidableEq

/-- One active listing kept by the fetcher. -/
structure Listing where
  itemId : String
  sku : String
  currentQty : Int
deriving Repr, DecidableEq

/-- Acknowledgment acceptance test used by fetcher and updater:
`ack in ("Success", "Warning")`. -/
def ackAccepted (ack : String) : Bool :=
  ack = "Success" ∨ ack = "Warning"

/-- Item-processing body of the `_fetch_listings_page` item loop
(lines 184-207): drop non-`Active` listings, compute
`max(0, Quantity - QuantitySold)`, keep only items with non-empty
`ItemID` and non-empty stripped `SKU`. -/
def processRawItem (acc : List Listing) (item : RawItem) : List Listing :=
  let sku := pyStrip item.sku
  if item.listingStatus ≠ "Active" then acc
  else
    let qtyTotal := item.quantity.getD 0
    let qtySold := item.quantitySold.getD 0
    let qtyAvail := max 0 (qtyTotal - qtySold)
    if item.itemId ≠ "" ∧ sku ≠ "" then acc ++ [⟨item.itemId, sku, qtyAvail⟩] else acc

/-- `_fetch_listings_page` (lines 144-221), response-processing part:
validate the acknowledgment (anything other than `Success`/`Warning`
raises a `RuntimeError` carrying the per-error code and long-or-short
message), then extract active items and the pagination fields. -/
def fetch_listings_page (raw : RawPage) :
    Except SyncError (List Listing × Int × Bool) :=
  if ¬ ackAccepted raw.ack then
    .error (.protocol "GetSellerList"
      (raw.errors.map (fun e =>
        (e.code, if e.longMessage ≠ "" then e.longMessage else e.shortMessage))))
  else
    .ok (raw.items.foldl processRawItem [],
         raw.totalPages.getD 1,
         raw.hasMoreText = some "true")

/-- A remote listing server: page number to raw page response, or a
transport error (the `requests.post` / `raise_for_status` failure). -/
abbrev Server := Nat → Except SyncError RawPage

/-- Fetch and process one page. -/
def fetchPage (server : Server) (page : Nat) :
    Except SyncError (List Listing × Int × Bool) := do
  fetch_listings_page (← server page)

/-- The `while True` loop of `fetch_ebay_listings` (lines 126-139):
fetch the page, accumulate its items, stop when
`page >= total_pages and not has_more`; otherwise increment the page
and stop anyway once it passes 500 (the safety limit), still returning
the accumulated items.  `fuel` counts the remaining increments, so the
initial call with `fuel = 499, page = 1` fetches at most pages 1..500. -/
def fetchLoop (server : Server) :
    Nat → Nat → List Listing → Except SyncError (List Listing)
  | fuel, page, acc =>
    match fetchPage server page with
    | .error e => .error e
    | .ok (items, totalPages, hasMore) =>
      let acc := acc ++ items
      if (page : Int) ≥ totalPages ∧ ¬ hasMore then .ok acc
      else
        match fuel with
        | 0 => .ok acc
        | fuel' + 1 => fetchLoop server fuel' (page + 1) acc

/-- `fetch_ebay_listings` (lines 115-142). -/
def fetch_ebay_listings (server : Server) : Except SyncError (List Listing) :=
  fetchLoop server 499 1 []

/-- `{item_id, sku, old_qty, new_qty}` dict built by the diff step. -/
structure PendingUpdate where
  itemId : String
  sku : String
  oldQty : Int
  newQty : Int
deriving Repr, DecidableEq

/-- A `ReviseInventoryStatus` response: acknowledgment and the number of
`InventoryStatus` blocks returned. -/
structure BatchResp where
  ack : String
  itemsReturned : Nat
deriving Repr, DecidableEq

/-- The batch-update remote: one batch to its raw response, or a
transport error. -/
abbrev Remote := List PendingUpdate → Except SyncError BatchResp

/-- `_update_batch` (lines 245-281): submit the batch; on an accepted
acknowledgment return the count of `InventoryStatus` entries in the
response, on any other acknowledgment return 0; a transport failure is
an exception. -/
def update_batch (remote : Remote) (batch : List PendingUpdate) :
    Except SyncError Nat :=
  match remote batch with
  | .error e => .error e
  | .ok r => .ok (if ackAccepted r.ack then r.itemsReturned else 0)

/-- Consecutive slices of at most 4 elements, mirroring
`updates[i : i + self.batch_size]` with `batch_size = 4`. -/
def chunksOf4 {α : Type} (l : List α) : List (List α) :=
  match l with
  | [] => []
  | x :: xs => (x :: xs.take 3) :: chunksOf4 (xs.drop 3)
termination_by l.length
decreasing_by simp [List.length_drop]; omega

/-- Loop body of `update_ebay_quantities` (lines 234-241): a successful
call adds its returned count to the success total and the shortfall
below the batch size to the failure total; an exception adds the whole
batch size to the failure total. -/
def updateStep (remote : Remote) (acc : Nat × Nat)
    (batch : List PendingUpdate) : Nat × Nat :=
  match update_batch remote batch with
  | .ok success =>
    (acc.1 + success,
     if success < batch.length then acc.2 + (batch.length - success) else acc.2)
  | .error _ => (acc.1, acc.2 + batch.length)

/-- `update_ebay_quantities` (lines 223-243): process the batches in
order, accumulating `(total_success, total_failed)` across all of
them. -/
def update_ebay_quantities (remote : Remote) (updates : List PendingUpdate) :
    Nat × Nat :=
  (chunksOf4 updates).foldl (updateStep remote) (0, 0)

/-- The diff step of `run_sync` (lines 299-315): one pass over the
listings, appending to `updates_needed` when the supplier value differs
and to `unmatched_skus` when the SKU is absent from the supplier map. -/
def diffStep (listings : List Listing) (stock : StockMap) :
    List PendingUpdate × List String :=
  listings.foldl
    (fun acc listing =>
      match dictGet? stock listing.sku with
      | none => (acc.1, acc.2 ++ [listing.sku])
      | some newQty =>
        if newQty ≠ listing.currentQty then
          (acc.1 ++ [⟨listing.itemId, listing.sku, listing.currentQty, newQty⟩], acc.2)
        else acc)
    ([], [])

/-- The summary dict returned by `run_sync` (duration omitted: wall
clock is outside the model). -/
structure SyncResult where
  status : String
  total_listings_checked : Nat
  items_updated : Nat
  items_failed : Nat
  items_out_of_stock : Nat
  unmatched_skus : Nat
  error_message : Option String
deriving Repr, DecidableEq

/-- The `try` body of `run_sync` (lines 291-338): download and parse the
supplier stock, fetch the listings, diff, update in batches (only when
updates are needed), and build the `completed` summary. -/
def run_sync_core (feedDl : Except SyncError (List Row)) (feedType : String)
    (columnMapping : Option Row) (server : Server) (remote : Remote) :
    Except SyncError SyncResult := do
  let supplierStock ← download_supplier_stock feedDl feedType columnMapping
  let listings ← fetch_ebay_listings server
  let (updatesNeeded, unmatchedSkus) := diffStep listings supplierStock
  let (itemsUpdated, itemsFailed) :=
    if updatesNeeded ≠ [] then update_ebay_quantities remote updatesNeeded
    else (0, 0)
  pure ⟨"completed", listings.length, itemsUpdated, itemsFailed,
        updatesNeeded.countP (fun u => u.newQty == 0), unmatchedSkus.length, none⟩

/-- `run_sync` (lines 283-353): the `except Exception` wrapper converts
any escaping error into a `failed` summary with zero counts and
`error_message = str(e)`. -/
def run_sync (feedDl : Except SyncError (List Row)) (feedType : String)
    (columnMapping : Option Row) (server : Server) (remote : Remote) :
    SyncResult :=
  match run_sync_core feedDl feedType columnMapping server remote with
  | .ok r => r
  | .error e => ⟨"failed", 0, 0, 0, 0, 0, some (errorDescription e)⟩

/-! ## Diff step -/

/-- Spec-side description of the update emitted for one listing:
`none` when the SKU is absent or the quantity already agrees. -/
def updateFor (stock : StockMap) (l : Listing) : Option PendingUpdate :=
  match dictGet? stock l.sku with
  | none => none
  | some q => if q ≠ l.currentQty then some ⟨l.itemId, l.sku, l.currentQty, q⟩ else none

lemma diff_foldl (stock : StockMap) :
    ∀ (listings : List Listing) (u : List PendingUpdate) (m : List String),
    listings.foldl
      (fun acc listing =>
        match dictGet? stock listing.sku with
        | none => (acc.1, acc.2 ++ [listing.sku])
        | some newQty =>
          if newQty ≠ listing.currentQty then
            (acc.1 ++ [⟨listing.itemId, listing.sku, listing.currentQty, newQty⟩], acc.2)
          else acc)
      (u, m)
    = (u ++ listings.filterMap (updateFor stock),
       m ++ (listings.filter (fun l => (dictGet? stock l.sku).isNone)).map Listing.sku) := by
  intro listings
  induction listings with
  | nil => intro u m; simp
  | cons l ls ih =>
    intro u m
    simp only [List.foldl_cons, List.filterMap_cons, List.filter_cons]
    rcases hq : dictGet? stock l.sku with _ | q
    · simp only [hq, ih, updateFor, Option.isNone]
      simp [hq]
    · by_cases hne : q ≠ l.currentQty
      · simp only [hq, if_pos hne, ih, updateFor]
        simp [hq, hne]
      · simp only [hq, if_neg hne, ih, updateFor]
        simp [hq, hne]

/-- C1: the diff step emits, in input listing order, exactly one update
per listing whose SKU is in the stock map with a differing value (with
`newQuantity` taken from the map), and records exactly the SKU of each
listing absent from the map in `unmatched_skus`. -/
theorem C1_diff_step (listings : List Listing) (stock : StockMap) :
    (diffStep listings stock).1 = listings.filterMap (updateFor stock)
    ∧ (diffStep listings stock).2
      = (listings.filter (fun l => (dictGet? stock l.sku).isNone)).map Listing.sku := by
  have h := diff_foldl stock listings [] []
  unfold diffStep
  rw [h]
  simp

/-! ## Orchestrator failure path -/

/-- C2: whenever the feed download (normalizer step) or the listing
fetch errors, `run_sync` swallows the exception and returns a `failed`
summary with every count at zero and `error_message = str(e)`; no
partial diff or update data reaches the result. -/
theorem C2_failed_run_zeroes (feedDl : Except SyncError (List Row))
    (feedType : String) (columnMapping : Option Row) (server : Server)
    (remote : Remote) (e : SyncError)
    (h : feedDl = .error e
       ∨ (∃ rows, feedDl = .ok rows ∧ fetch_ebay_listings server = .error e)) :
    run_sync feedDl feedType columnMapping server remote
      = ⟨"failed", 0, 0, 0, 0, 0, some (errorDescription e)⟩ := by
  rcases h with h | ⟨rows, hrows, hfetch⟩
  · subst h; rfl
  · subst hrows
    simp only [run_sync, run_sync_core, download_supplier_stock, hfetch]
    rfl

/-- Witness for C2 at a concrete failing feed download. -/
def okServer : Server := fun _ =>
  .ok ⟨"Success", [], [⟨"I1", "A", "Active", some 5, some 2⟩], some 1, none⟩

def okRemote : Remote := fun b => .ok ⟨"Success", b.length⟩

theorem C2_failed_run_zeroes_witness :
    run_sync (.error (.feedFetch "boom")) "azuregreen" none okServer okRemote
      = ⟨"failed", 0, 0, 0, 0, 0, some "boom"⟩ :=
  C2_failed_run_zeroes (.error (.feedFetch "boom")) "azuregreen" none okServer
    okRemote (.feedFetch "boom") (Or.inl rfl)

/-! ## Batched updater -/

lemma chunksOf4_nil {α : Type} : chunksOf4 ([] : List α) = [] := by
  simp [chunksOf4]

lemma chunksOf4_cons_eq {α : Type} (l : List α) (h : l ≠ []) :
    chunksOf4 l = l.take 4 :: chunksOf4 (l.drop 4) := by
  match l with
  | [] => exact absurd rfl h
  | x :: xs =>
    rw [chunksOf4]
    rfl

lemma chunksOf4_flatten {α : Type} :
    ∀ (n : Nat) (l : List α), l.length ≤ n → (chunksOf4 l).flatten = l := by
  intro n
  induction n with
  | zero =>
    intro l hl
    have : l = [] := List.eq_nil_of_length_eq_zero (Nat.le_zero.mp hl)
    simp [this, chunksOf4_nil]
  | succ n ih =>
    intro l hl
    match l with
    | [] => simp [chunksOf4_nil]
    | x :: xs =>
      rw [chunksOf4_cons_eq (x :: xs) (by simp), List.flatten_cons]
      rw [ih ((x :: xs).drop 4) (by simp at hl ⊢; omega)]
      exact List.take_append_drop 4 (x :: xs)

lemma chunksOf4_mem {α : Type} :
    ∀ (n : Nat) (l : List α), l.length ≤ n →
    ∀ b ∈ chunksOf4 l, b.length ≤ 4 ∧ b ≠ [] := by
  intro n
  induction n with
  | zero =>
    intro l hl b hb
    have : l = [] := List.eq_nil_of_length_eq_zero (Nat.le_zero.mp hl)
    rw [this, chunksOf4_nil] at hb
    simp at hb
  | succ n ih =>
    intro l hl b hb
    match l with
    | [] => rw [chunksOf4_nil] at hb; simp at hb
    | x :: xs =>
      rw [chunksOf4_cons_eq (x :: xs) (by simp)] at hb
      rcases List.mem_cons.mp hb with hb | hb
      · subst hb
        constructor
        · simp
        · simp
      · exact ih ((x :: xs).drop 4) (by simp at hl ⊢; omega) b hb

/-- Spec-side per-batch succeeded count: the returned entry count on an
accepted acknowledgment, 0 otherwise. -/
def batchSucc (remote : Remote) (b : List PendingUpdate) : Nat :=
  match remote b with
  | .error _ => 0
  | .ok r => if ackAccepted r.ack then r.itemsReturned else 0

/-- Spec-side per-batch failed count: the shortfall below the batch size
on an accepted acknowledgment, the whole batch size otherwise. -/
def batchFail (remote : Remote) (b : List PendingUpdate) : Nat :=
  match remote b with
  | .error _ => b.length
  | .ok r => b.length - (if ackAccepted r.ack then r.itemsReturned else 0)

lemma updateStep_eq (remote : Remote) (a c : Nat) (b : List PendingUpdate) :
    updateStep remote (a, c) b = (a + batchSucc remote b, c + batchFail remote b) := by
  rcases hr : remote b with e | r
  · simp [updateStep, update_batch, batchSucc, batchFail, hr]
  · by_cases hack : ackAccepted r.ack
    · by_cases hlt : r.itemsReturned < b.length
      · simp [updateStep, update_batch, batchSucc, batchFail, hr, hack, hlt]
      · simp [updateStep, update_batch, batchSucc, batchFail, hr, hack, hlt,
          Nat.sub_eq_zero_of_le (Nat.le_of_not_lt hlt)]
    · rcases Nat.eq_zero_or_pos b.length with h0 | hpos
      · simp [updateStep, update_batch, batchSucc, batchFail, hr, hack, h0]
      · simp [updateStep, update_batch, batchSucc, batchFail, hr, hack, hpos]

lemma update_foldl_acct (remote : Remote) :
    ∀ (bs : List (List PendingUpdate)) (a c : Nat),
    bs.foldl (updateStep remote) (a, c)
    = (a + (bs.map (batchSucc remote)).sum, c + (bs.map (batchFail remote)).sum) := by
  intro bs
  induction bs with
  | nil => intro a c; simp
  | cons b rest ih =>
    intro a c
    rw [List.foldl_cons, updateStep_eq, ih]
    simp only [List.map_cons, List.sum_cons, Prod.mk.injEq]
    omega

/-- C3: the updater splits the updates into consecutive batches of at
most 4 (whose concatenation is the input), accumulates per-batch
succeeded/failed counts across all batches — accepted acknowledgment:
returned entry count succeeded, shortfall failed; exception or other
acknowledgment: whole batch failed — and for 9 updates the batch sizes
are `[4, 4, 1]`; when the middle batch's call throws, exactly that
batch's 4 items are failed and the third batch still contributes. -/
theorem C3_batched_updater (remote : Remote) (updates : List PendingUpdate) :
    (chunksOf4 updates).flatten = updates
    ∧ (∀ b ∈ chunksOf4 updates, b.length ≤ 4 ∧ b ≠ [])
    ∧ update_ebay_quantities remote updates
      = (((chunksOf4 updates).map (batchSucc remote)).sum,
         ((chunksOf4 updates).map (batchFail remote)).sum)
    ∧ (updates.length = 9 →
        (chunksOf4 updates).map List.length = [4, 4, 1]
        ∧ ∀ e : SyncError, remote ((updates.drop 4).take 4) = .error e →
            update_ebay_quantities remote updates
              = (batchSucc remote (updates.take 4) + batchSucc remote (updates.drop 8),
                 batchFail remote (updates.take 4) + 4 + batchFail remote (updates.drop 8))) := by
  have hjoin := chunksOf4_flatten updates.length updates (Nat.le_refl _)
  have hmem := chunksOf4_mem updates.length updates (Nat.le_refl _)
  have hacct : update_ebay_quantities remote updates
      = (((chunksOf4 updates).map (batchSucc remote)).sum,
         ((chunksOf4 updates).map (batchFail remote)).sum) := by
    unfold update_ebay_quantities
    rw [update_foldl_acct remote (chunksOf4 updates) 0 0]
    simp
  refine ⟨hjoin, hmem, hacct, ?_⟩
  intro h9
  have hne : updates ≠ [] := by
    intro h; rw [h] at h9; simp at h9
  have hd4 : (updates.drop 4).length = 5 := by simp [h9]
  have hd4ne : updates.drop 4 ≠ [] := by
    intro h; rw [h] at hd4; simp at hd4
  have hd8 : ((updates.drop 4).drop 4).length = 1 := by simp [h9]
  have hd8ne : (updates.drop 4).drop 4 ≠ [] := by
    intro h; rw [h] at hd8; simp at hd8
  have hd8eq : (updates.drop 4).drop 4 = updates.drop 8 := by
    rw [List.drop_drop]
  have hd12 : ((updates.drop 4).drop 4).drop 4 = [] := by
    apply List.eq_nil_of_length_eq_zero
    simp [h9]
  have hchunks : chunksOf4 updates
      = [updates.take 4, (updates.drop 4).take 4, updates.drop 8] := by
    rw [chunksOf4_cons_eq updates hne, chunksOf4_cons_eq _ hd4ne,
        chunksOf4_cons_eq _ hd8ne, hd12, chunksOf4_nil]
    rw [hd8eq]
    have : (updates.drop 8).take 4 = updates.drop 8 := by
      apply List.take_of_length_le
      simp [h9]
    rw [this]
  constructor
  · rw [hchunks]
    simp [h9, List.length_take]
  · intro e he
    rw [hacct, hchunks]
    have hmidS : batchSucc remote ((updates.drop 4).take 4) = 0 := by
      simp [batchSucc, he]
    have hmidF : batchFail remote ((updates.drop 4).take 4) = 4 := by
      simp [batchFail, he, List.length_take, h9]
    simp only [List.map_cons, List.map_nil, List.sum_cons, List.sum_nil,
      hmidS, hmidF, Prod.mk.injEq]
    omega

/-- Nine concrete pending updates for the C3 scenario. -/
def nineUpdates : List PendingUpdate :=
  [⟨"1", "a", 1, 0⟩, ⟨"2", "b", 1, 0⟩, ⟨"3", "c", 1, 0⟩, ⟨"4", "d", 1, 0⟩,
   ⟨"5", "e", 1, 0⟩, ⟨"6", "f", 1, 0⟩, ⟨"7", "g", 1, 0⟩, ⟨"8", "h", 1, 0⟩,
   ⟨"9", "i", 1, 0⟩]

/-- A remote that throws exactly on the middle batch of `nineUpdates`
and acknowledges every other call in full. -/
def midFailRemote : Remote := fun b =>
  if b = (nineUpdates.drop 4).take 4 then .error (.transport "reset")
  else .ok ⟨"Success", b.length⟩

theorem C3_batched_updater_witness :
    (chunksOf4 nineUpdates).map List.length = [4, 4, 1]
    ∧ update_ebay_quantities midFailRemote nineUpdates
      = (batchSucc midFailRemote (nineUpdates.take 4)
           + batchSucc midFailRemote (nineUpdates.drop 8),
         batchFail midFailRemote (nineUpdates.take 4) + 4
           + batchFail midFailRemote (nineUpdates.drop 8)) := by
  have h := (C3_batched_updater midFailRemote nineUpdates).2.2.2 (by decide)
  exact ⟨h.1, h.2 (.transport "reset") (by simp [midFailRemote])⟩

/-! ## Custom feed column defaults -/

lemma rowGet_of_absent (m : Row) (k d : String) (h : ∀ p ∈ m, p.1 ≠ k) :
    rowGet m k d = d := by
  induction m with
  | nil => rfl
  | cons p rest ih =>
    have hp : p.1 ≠ k := h p (List.mem_cons_self p rest)
    simp only [rowGet]
    rw [if_neg hp]
    exact ih (fun q hq => h q (List.mem_cons_of_mem p hq))

/-- Counterexample to C4 as stated: a custom feed whose header includes
`SKU` and `Quantity` yields the empty stock map when `column_mapping` is
`None` or the empty dict, because the `custom` branch requires a truthy
mapping. -/
theorem C4_counterexample :
    parseSupplierFeed "custom" none [[("SKU", "A"), ("Quantity", "5")]] = []
    ∧ parseSupplierFeed "custom" (some []) [[("SKU", "A"), ("Quantity", "5")]] = [] :=
  ⟨rfl, rfl⟩

/-- C4 (amended): the `"SKU"`/`"Quantity"` defaults apply only when a
non-empty `column_mapping` is supplied that leaves those two keys
unmapped; the custom branch then applies the same
float-parse-truncate-then-binary reduction as `azuregreen`, and a feed
with those headers yields a non-empty stock map. -/
theorem C4_custom_defaults (m : Row) (rows : List Row) (hne : m ≠ [])
    (hsku : ∀ p ∈ m, p.1 ≠ "sku_column")
    (hqty : ∀ p ∈ m, p.1 ≠ "quantity_column") :
    parseSupplierFeed "custom" (some m) rows
      = rows.foldl
          (fun st r =>
            let sku := pyStrip (rowGet r "SKU" "")
            let qtyRaw := pyStrip (rowGet r "Quantity" "0")
            if sku = "" then st
            else dictInsert st sku
              (if ((pyFloatTrunc? qtyRaw).getD 0) > 0 then 1 else 0)) []
    ∧ ∀ row : Row, pyStrip (rowGet row "SKU" "") ≠ "" →
        parseSupplierFeed "custom" (some m) [row] ≠ [] := by
  have htruthy : mappingTruthy (some m) = true := by
    simp [mappingTruthy, hne]
  have hbranch : ∀ rs : List Row,
      parseSupplierFeed "custom" (some m) rs = rs.foldl (customRow m) [] := by
    intro rs
    simp [parseSupplierFeed, htruthy]
  have hstep : customRow m = fun st r =>
      let sku := pyStrip (rowGet r "SKU" "")
      let qtyRaw := pyStrip (rowGet r "Quantity" "0")
      if sku = "" then st
      else dictInsert st sku
        (if ((pyFloatTrunc? qtyRaw).getD 0) > 0 then 1 else 0) := by
    funext st r
    simp only [customRow, rowGet_of_absent m "sku_column" "SKU" hsku,
      rowGet_of_absent m "quantity_column" "Quantity" hqty]
  constructor
  · rw [hbranch, hstep]
  · intro row hrow
    rw [hbranch]
    simp only [List.foldl_cons, List.foldl_nil, hstep]
    rw [if_neg hrow]
    cases h : dictInsert [] (pyStrip (rowGet row "SKU" ""))
        (if ((pyFloatTrunc? (pyStrip (rowGet row "Quantity" "0"))).getD 0) > 0 then 1 else 0) with
    | nil => simp [dictInsert] at h
    | cons a l => simp

/-- Witness for the amended C4: a one-key mapping that maps neither
column, over a feed with `SKU`/`Quantity` headers. -/
theorem C4_custom_defaults_witness :
    parseSupplierFeed "custom" (some [("note", "x")]) [[("SKU", "A"), ("Quantity", "5")]] ≠ [] := by
  have h := C4_custom_defaults [("note", "x")] [[("SKU", "A"), ("Quantity", "5")]]
    (by decide) (by decide) (by decide)
  exact h.2 [("SKU", "A"), ("Quantity", "5")] (by decide)

/-! ## azuregreen row semantics -/

lemma dictGet?_insert_self (d : StockMap) (k : String) (v : Int) :
    dictGet? (dictInsert d k v) k = some v := by
  induction d with
  | nil => simp [dictInsert, dictGet?]
  | cons p rest ih =>
    by_cases h : p.1 = k
    · simp [dictInsert, dictGet?, h]
    · simp [dictInsert, dictGet?, h, ih]

/-- C5: for an azuregreen row with non-empty stripped SKU, the recorded
availability is 1 exactly when the float-parsed, truncated `UNITS` value
is positive and `CANTSELL` is not `"1"`; `CANTSELL = "1"` forces 0; and
the row's effect depends only on the `NUMBER`, `UNITS` and `CANTSELL`
columns, so a `DISCONT` column has no influence. -/
theorem C5_azuregreen_availability (row : Row) (stock : StockMap)
    (h : pyStrip (rowGet row "NUMBER" "") ≠ "") :
    (dictGet? (azuregreenRow stock row) (pyStrip (rowGet row "NUMBER" "")) = some 1
       ↔ (pyFloatTrunc? (pyStrip (rowGet row "UNITS" "0"))).getD 0 > 0
         ∧ pyStrip (rowGet row "CANTSELL" "0") ≠ "1")
    ∧ (pyStrip (rowGet row "CANTSELL" "0") = "1" →
        dictGet? (azuregreenRow stock row) (pyStrip (rowGet row "NUMBER" "")) = some 0)
    ∧ (∀ row₂ : Row,
        rowGet row₂ "NUMBER" "" = rowGet row "NUMBER" "" →
        rowGet row₂ "UNITS" "0" = rowGet row "UNITS" "0" →
        rowGet row₂ "CANTSELL" "0" = rowGet row "CANTSELL" "0" →
        azuregreenRow stock row₂ = azuregreenRow stock row) := by
  refine ⟨?_, ?_, ?_⟩
  · by_cases hc : pyStrip (rowGet row "CANTSELL" "0") = "1"
    · have hv : azuregreenRow stock row
          = dictInsert stock (pyStrip (rowGet row "NUMBER" "")) 0 := by
        simp [azuregreenRow, if_neg h, hc]
      rw [hv, dictGet?_insert_self]
      simp [hc]
    · by_cases hq : (pyFloatTrunc? (pyStrip (rowGet row "UNITS" "0"))).getD 0 > 0
      · have hv : azuregreenRow stock row
            = dictInsert stock (pyStrip (rowGet row "NUMBER" "")) 1 := by
          simp [azuregreenRow, if_neg h, hc, hq]
        rw [hv, dictGet?_insert_self]
        simp [hq, hc]
      · have hv : azuregreenRow stock row
            = dictInsert stock (pyStrip (rowGet row "NUMBER" "")) 0 := by
          simp [azuregreenRow, if_neg h, hc, hq]
        rw [hv, dictGet?_insert_self]
        simp [hq, hc]
  · intro hc
    have hv : azuregreenRow stock row
        = dictInsert stock (pyStrip (rowGet row "NUMBER" "")) 0 := by
      simp [azuregreenRow, if_neg h, hc]
    rw [hv, dictGet?_insert_self]
  · intro row₂ h1 h2 h3
    simp only [azuregreenRow, h1, h2, h3]

/-- Witness for C5: a row with positive `UNITS`, `CANTSELL = "1"` and a
`DISCONT` column records availability 0. -/
theorem C5_azuregreen_availability_witness :
    dictGet? (azuregreenRow []
        [("NUMBER", "X1"), ("UNITS", "5"), ("CANTSELL", "1"), ("DISCONT", "1")])
      (pyStrip (rowGet [("NUMBER", "X1"), ("UNITS", "5"), ("CANTSELL", "1"), ("DISCONT", "1")] "NUMBER" ""))
      = some 0 :=
  (C5_azuregreen_availability
    [("NUMBER", "X1"), ("UNITS", "5"), ("CANTSELL", "1"), ("DISCONT", "1")] []
    (by decide)).2.1 (by decide)

/-! ## Empty-SKU skipping and last-row-wins, all feed types -/

lemma dictGet?_insert_ne (d : StockMap) (k k' : String) (v : Int) (h : k ≠ k') :
    dictGet? (dictInsert d k v) k' = dictGet? d k' := by
  induction d with
  | nil => simp [dictInsert, dictGet?, h]
  | cons p rest ih =>
    by_cases hp : p.1 = k
    · simp [dictInsert, dictGet?, hp, h]
    · simp [dictInsert, dictGet?, hp, ih]

lemma mem_keys_dictInsert (d : StockMap) (k x : String) (v : Int) :
    x ∈ (dictInsert d k v).map Prod.fst ↔ x ∈ d.map Prod.fst ∨ x = k := by
  induction d with
  | nil => simp [dictInsert]
  | cons p rest ih =>
    by_cases hp : p.1 = k
    · simp [dictInsert, hp, ih]
      tauto
    · simp [dictInsert, hp, ih]
      tauto

lemma keys_nodup_dictInsert (d : StockMap) (k : String) (v : Int)
    (h : (d.map Prod.fst).Nodup) : ((dictInsert d k v).map Prod.fst).Nodup := by
  induction d with
  | nil => simp [dictInsert]
  | cons p rest ih =>
    rw [List.map_cons, List.nodup_cons] at h
    by_cases hp : p.1 = k
    · simp only [dictInsert, if_pos hp, List.map_cons, List.nodup_cons]
      exact ⟨by rw [← hp]; exact h.1, h.2⟩
    · simp only [dictInsert, if_neg hp, List.map_cons, List.nodup_cons]
      refine ⟨?_, ih h.2⟩
      rw [mem_keys_dictInsert]
      push_neg
      exact ⟨h.1, hp⟩

/-- Spec-side shape shared by all three row-processing bodies: skip the
row when the (stripped) SKU is empty, otherwise write the row's value at
the row's SKU. -/
def rowStep (skuF : Row → String) (valF : Row → Int)
    (st : StockMap) (row : Row) : StockMap :=
  if skuF row = "" then st else dictInsert st (skuF row) (valF row)

/-- Spec-side value of the last row binding a given SKU: later rows take
precedence. -/
def lastBinding (skuF : Row → String) (valF : Row → Int)
    (rows : List Row) (k : String) : Option Int :=
  match rows with
  | [] => none
  | r :: rest =>
    match lastBinding skuF valF rest k with
    | some v => some v
    | none => if skuF r = k then some (valF r) else none

lemma foldl_rowStep_lookup (skuF : Row → String) (valF : Row → Int) :
    ∀ (rows : List Row) (d : StockMap) (k : String), k ≠ "" →
    dictGet? (rows.foldl (rowStep skuF valF) d) k
      = match lastBinding skuF valF rows k with
        | some v => some v
        | none => dictGet? d k := by
  intro rows
  induction rows with
  | nil => intro d k _; simp [lastBinding]
  | cons r rs ih =>
    intro d k hk
    rw [List.foldl_cons, ih (rowStep skuF valF d r) k hk]
    rcases hlb : lastBinding skuF valF rs k with _ | v
    · simp only [lastBinding, hlb]
      by_cases hrk : skuF r = k
      · have hne : skuF r ≠ "" := by rw [hrk]; exact hk
        rw [if_pos hrk]
        simp only [rowStep, hrk]
        rw [if_neg hk, dictGet?_insert_self]
      · rw [if_neg hrk]
        by_cases hempty : skuF r = ""
        · simp [rowStep, hempty]
        · simp only [rowStep, if_neg hempty]
          exact dictGet?_insert_ne d (skuF r) k (valF r) hrk
    · simp [lastBinding, hlb]

lemma foldl_rowStep_nodup (skuF : Row → String) (valF : Row → Int) :
    ∀ (rows : List Row) (d : StockMap), (d.map Prod.fst).Nodup →
    ((rows.foldl (rowStep skuF valF) d).map Prod.fst).Nodup := by
  intro rows
  induction rows with
  | nil => intro d hd; exact hd
  | cons r rs ih =>
    intro d hd
    rw [List.foldl_cons]
    apply ih
    by_cases hempty : skuF r = ""
    · simpa [rowStep, hempty] using hd
    · simp only [rowStep, if_neg hempty]
      exact keys_nodup_dictInsert d (skuF r) (valF r) hd

/-- Stripped SKU read by an azuregreen row. -/
def agSku (row : Row) : String := pyStrip (rowGet row "NUMBER" "")

/-- Availability written by an azuregreen row. -/
def agVal (row : Row) : Int :=
  let qty : Int := (pyFloatTrunc? (pyStrip (rowGet row "UNITS" "0"))).getD 0
  let qty : Int := if pyStrip (rowGet row "CANTSELL" "0") = "1" then 0 else qty
  if qty > 0 then 1 else 0

/-- Stripped SKU read by a diecast row. -/
def dcSku (row : Row) : String := pyStrip (rowGet row "Product ID" "")

/-- Availability written by a diecast row. -/
def dcVal (row : Row) : Int :=
  let qtyRaw := pyStrip (rowGet row "Product Visible" "0")
  let qty : Int :=
    match pyIntParse? qtyRaw with
    | some n => n
    | none =>
      if (pyLower qtyRaw) = "yes" ∨ (pyLower qtyRaw) = "true"
         ∨ (pyLower qtyRaw) = "1" ∨ (pyLower qtyRaw) = "available" then 1 else 0
  if qty > 0 then 1 else 0

/-- Stripped SKU read by a custom row under a given mapping. -/
def cuSku (cm : Row) (row : Row) : String :=
  pyStrip (rowGet row (rowGet cm "sku_column" "SKU") "")

/-- Availability written by a custom row under a given mapping. -/
def cuVal (cm : Row) (row : Row) : Int :=
  let qtyRaw := pyStrip (rowGet row (rowGet cm "quantity_column" "Quantity") "0")
  let qty : Int := (pyFloatTrunc? qtyRaw).getD 0
  if qty > 0 then 1 else 0

lemma azuregreenRow_shape : azuregreenRow = rowStep agSku agVal := rfl

lemma diecastRow_shape : diecastRow = rowStep dcSku dcVal := rfl

lemma customRow_shape (cm : Row) : customRow cm = rowStep (cuSku cm) (cuVal cm) := rfl

/-- C6: for every feed type, a row whose stripped SKU is empty leaves
the stock map untouched; the finished map holds at most one entry per
SKU (its key list is duplicate-free, for every feed type and mapping);
and looking up a non-empty SKU returns exactly the value of the last
feed row that bound it. -/
theorem C6_empty_sku_last_wins :
    (∀ (stock : StockMap) (row : Row),
        pyStrip (rowGet row "NUMBER" "") = "" → azuregreenRow stock row = stock)
    ∧ (∀ (stock : StockMap) (row : Row),
        pyStrip (rowGet row "Product ID" "") = "" → diecastRow stock row = stock)
    ∧ (∀ (cm : Row) (stock : StockMap) (row : Row),
        pyStrip (rowGet row (rowGet cm "sku_column" "SKU") "") = "" →
        customRow cm stock row = stock)
    ∧ (∀ (feedType : String) (cmOpt : Option Row) (rows : List Row),
        ((parseSupplierFeed feedType cmOpt rows).map Prod.fst).Nodup)
    ∧ (∀ (cmOpt : Option Row) (rows : List Row) (k : String), k ≠ "" →
        dictGet? (parseSupplierFeed "azuregreen" cmOpt rows) k
          = lastBinding agSku agVal rows k)
    ∧ (∀ (cmOpt : Option Row) (rows : List Row) (k : String), k ≠ "" →
        dictGet? (parseSupplierFeed "diecast" cmOpt rows) k
          = lastBinding dcSku dcVal rows k)
    ∧ (∀ (m : Row) (rows : List Row) (k : String), m ≠ [] → k ≠ "" →
        dictGet? (parseSupplierFeed "custom" (some m) rows) k
          = lastBinding (cuSku m) (cuVal m) rows k) := by
  have hlookup : ∀ (skuF : Row → String) (valF : Row → Int) rows k, k ≠ "" →
      dictGet? (rows.foldl (rowStep skuF valF) []) k = lastBinding skuF valF rows k := by
    intro skuF valF rows k hk
    rw [foldl_rowStep_lookup skuF valF rows [] k hk]
    rcases lastBinding skuF valF rows k with _ | v <;> simp [dictGet?]
  refine ⟨?_, ?_, ?_, ?_, ?_, ?_, ?_⟩
  · intro stock row h
    rw [azuregreenRow_shape]
    simp [rowStep, agSku, h]
  · intro stock row h
    rw [diecastRow_shape]
    simp [rowStep, dcSku, h]
  · intro cm stock row h
    rw [customRow_shape]
    simp [rowStep, cuSku, h]
  · intro feedType cmOpt rows
    by_cases h1 : feedType = "azuregreen"
    · simp only [parseSupplierFeed, if_pos h1, azuregreenRow_shape]
      exact foldl_rowStep_nodup agSku agVal rows [] (by simp)
    · by_cases h2 : feedType = "diecast"
      · simp only [parseSupplierFeed, if_neg h1, if_pos h2, diecastRow_shape]
        exact foldl_rowStep_nodup dcSku dcVal rows [] (by simp)
      · by_cases h3 : feedType = "custom" ∧ mappingTruthy cmOpt
        · simp only [parseSupplierFeed, if_neg h1, if_neg h2, if_pos h3,
            customRow_shape]
          exact foldl_rowStep_nodup (cuSku (cmOpt.getD [])) (cuVal (cmOpt.getD []))
            rows [] (by simp)
        · simp [parseSupplierFeed, h1, h2, h3]
  · intro cmOpt rows k hk
    simp only [parseSupplierFeed, if_pos rfl, azuregreenRow_shape]
    exact hlookup agSku agVal rows k hk
  · intro cmOpt rows k hk
    have hne : ("diecast" : String) ≠ "azuregreen" := by decide
    simp only [parseSupplierFeed, if_neg hne, if_pos rfl, diecastRow_shape]
    exact hlookup dcSku dcVal rows k hk
  · intro m rows k hm hk
    have htruthy : mappingTruthy (some m) = true := by
      simp [mappingTruthy, hm]
    have hbranch : parseSupplierFeed "custom" (some m) rows
        = rows.foldl (customRow m) [] := by
      simp [parseSupplierFeed, htruthy]
    rw [hbranch, customRow_shape]
    exact hlookup (cuSku m) (cuVal m) rows k hk

/-- Witness for C6: an azuregreen feed where one row has a whitespace
SKU and two rows share SKU `A`; the map keeps the later value. -/
theorem C6_empty_sku_last_wins_witness :
    azuregreenRow [("Z", 1)] [("NUMBER", "   ")] = [("Z", 1)]
    ∧ dictGet? (parseSupplierFeed "azuregreen" none
        [[("NUMBER", "A"), ("UNITS", "1")], [("NUMBER", " ")],
         [("NUMBER", "A"), ("UNITS", "0")]]) "A"
      = lastBinding agSku agVal
        [[("NUMBER", "A"), ("UNITS", "1")], [("NUMBER", " ")],
         [("NUMBER", "A"), ("UNITS", "0")]] "A" :=
  ⟨C6_empty_sku_last_wins.1 [("Z", 1)] [("NUMBER", "   ")] (by decide),
   C6_empty_sku_last_wins.2.2.2.2.1 none
     [[("NUMBER", "A"), ("UNITS", "1")], [("NUMBER", " ")],
      [("NUMBER", "A"), ("UNITS", "0")]] "A" (by decide)⟩

/-! ## Pagination termination -/

/-- Spec-side: the active items of a successfully fetched page. -/
def pageOkItems (server : Server) (p : Nat) : List Listing :=
  match fetchPage server p with
  | .ok r => r.1
  | .error _ => []

/-- Spec-side: the loop's stop condition at a page, from the server's
reported total page count and has-more flag. -/
def pageStop (server : Server) (p : Nat) : Bool :=
  match fetchPage server p with
  | .ok (_, totalPages, hasMore) => decide ((p : Int) ≥ totalPages) && !hasMore
  | .error _ => false

lemma fetchLoop_eq (server : Server) (fuel page : Nat) (acc : List Listing) :
    fetchLoop server fuel page acc
      = match fetchPage server page with
        | .error e => .error e
        | .ok (items, totalPages, hasMore) =>
          let acc' := acc ++ items
          if (page : Int) ≥ totalPages ∧ ¬ hasMore then .ok acc'
          else
            match fuel with
            | 0 => .ok acc'
            | fuel' + 1 => fetchLoop server fuel' (page + 1) acc' := by
  rw [fetchLoop]

lemma fetchLoop_spec (server : Server) :
    ∀ (fuel page : Nat) (acc : List Listing),
    (∀ p, page ≤ p → p ≤ page + fuel → ∃ r, fetchPage server p = .ok r) →
    ∃ k, page ≤ k ∧ k ≤ page + fuel ∧
      fetchLoop server fuel page acc
        = .ok (acc ++ ((List.range (k + 1 - page)).map
            (fun i => pageOkItems server (page + i))).flatten) ∧
      (pageStop server k = true ∨ k = page + fuel) ∧
      (∀ j, page ≤ j → j < k → pageStop server j = false) := by
  intro fuel
  induction fuel with
  | zero =>
    intro page acc hok
    obtain ⟨⟨items, totalPages, hasMore⟩, hfp⟩ :=
      hok page (Nat.le_refl page) (Nat.le_add_right page 0)
    have hrun : fetchLoop server 0 page acc = .ok (acc ++ items) := by
      rw [fetchLoop_eq, hfp]
      by_cases hc : (page : Int) ≥ totalPages ∧ ¬ hasMore
      · simp only [if_pos hc]
      · simp only [if_neg hc]
    refine ⟨page, Nat.le_refl page, Nat.le_add_right page 0, ?_, Or.inr rfl, ?_⟩
    · rw [hrun]
      have h1 : page + 1 - page = 1 := by omega
      rw [h1]
      simp [pageOkItems, hfp, List.range_succ]
    · intro j h1 h2
      omega
  | succ fuel ih =>
    intro page acc hok
    obtain ⟨⟨items, totalPages, hasMore⟩, hfp⟩ :=
      hok page (Nat.le_refl page) (Nat.le_add_right page (fuel + 1))
    by_cases hc : (page : Int) ≥ totalPages ∧ ¬ hasMore
    · have hrun : fetchLoop server (fuel + 1) page acc = .ok (acc ++ items) := by
        rw [fetchLoop_eq, hfp]
        simp only [if_pos hc]
      refine ⟨page, Nat.le_refl page, Nat.le_add_right page (fuel + 1), ?_, ?_, ?_⟩
      · rw [hrun]
        have h1 : page + 1 - page = 1 := by omega
        rw [h1]
        simp [pageOkItems, hfp, List.range_succ]
      · left
        simp [pageStop, hfp]
        constructor
        · exact hc.1
        · simpa using hc.2
      · intro j h1 h2
        omega
    · have hrun : fetchLoop server (fuel + 1) page acc
          = fetchLoop server fuel (page + 1) (acc ++ items) := by
        rw [fetchLoop_eq, hfp]
        simp only [if_neg hc]
      obtain ⟨k, hk1, hk2, hk3, hk4, hk5⟩ :=
        ih (page + 1) (acc ++ items)
          (fun p hp1 hp2 => hok p (by omega) (by omega))
      refine ⟨k, by omega, by omega, ?_, ?_, ?_⟩
      · rw [hrun, hk3]
        have hn : k + 1 - page = (k + 1 - (page + 1)) + 1 := by omega
        rw [hn, List.range_succ_eq_map]
        simp only [List.map_cons, List.flatten_cons, List.map_map]
        have hhead : pageOkItems server (page + 0) = items := by
          simp [pageOkItems, hfp]
        have htail :
            ((List.range (k + 1 - (page + 1))).map
              ((fun i => pageOkItems server (page + i)) ∘ Nat.succ))
            = (List.range (k + 1 - (page + 1))).map
                (fun i => pageOkItems server (page + 1 + i)) := by
          apply List.map_congr_left
          intro i _
          simp only [Function.comp]
          congr 1
          omega
        rw [hhead, htail, List.append_assoc]
      · rcases hk4 with h | h
        · exact Or.inl h
        · exact Or.inr (by omega)
      · intro j h1 h2
        by_cases hj : j = page
        · subst hj
          simp only [pageStop, hfp]
          rw [Bool.and_eq_false_iff]
          by_cases hm : hasMore
          · right; simp [hm]
          · left
            simp only [decide_eq_false_iff_not]
            intro hge
            exact hc ⟨hge, hm⟩
        · exact hk5 j (by omega) h2

/-- C7: whenever every page up to the 500-page ceiling parses
successfully, the fetch loop terminates at some page `k ≤ 500`; it stops
at the first page satisfying the server-reported stop condition
(`page ≥ totalPages` and no more items), or at the ceiling otherwise,
and in every case returns the concatenated items of pages `1..k` — the
ceiling is not an error. -/
theorem C7_pagination_termination (server : Server)
    (hok : ∀ p, 1 ≤ p → p ≤ 500 → ∃ r, fetchPage server p = .ok r) :
    ∃ k, 1 ≤ k ∧ k ≤ 500 ∧
      fetch_ebay_listings server
        = .ok (((List.range k).map (fun i => pageOkItems server (1 + i))).flatten) ∧
      (pageStop server k = true ∨ k = 500) ∧
      (∀ j, 1 ≤ j → j < k → pageStop server j = false) := by
  obtain ⟨k, hk1, hk2, hk3, hk4, hk5⟩ :=
    fetchLoop_spec server 499 1 [] (fun p hp1 hp2 => hok p hp1 (by omega))
  refine ⟨k, hk1, by omega, ?_, ?_, hk5⟩
  · rw [fetch_ebay_listings, hk3]
    have h1 : k + 1 - 1 = k := by omega
    rw [h1]
    simp
  · rcases hk4 with h | h
    · exact Or.inl h
    · exact Or.inr (by omega)

/-- A server whose single page reports `totalPages = 1` and no more
items, for the C7 witness. -/
def onePageServer : Server := fun _ =>
  .ok ⟨"Success", [], [⟨"I1", "A", "Active", some 3, some 1⟩], some 1, none⟩

theorem C7_pagination_termination_witness :
    ∃ k, 1 ≤ k ∧ k ≤ 500 ∧
      fetch_ebay_listings onePageServer
        = .ok (((List.range k).map
            (fun i => pageOkItems onePageServer (1 + i))).flatten) ∧
      (pageStop onePageServer k = true ∨ k = 500) ∧
      (∀ j, 1 ≤ j → j < k → pageStop onePageServer j = false) :=
  C7_pagination_termination onePageServer (fun _ _ _ => ⟨([⟨"I1", "A", 2⟩], 1, false), rfl⟩)

/-! ## Page acknowledgment validation -/

/-- C8: a page fetch raises a protocol error exactly when the response
acknowledgment is neither `Success` nor `Warning`; the error carries the
(code, long-or-short message) pair of every error entry, and an accepted
acknowledgment yields the processed page items and pagination fields. -/
theorem C8_page_ack_validation (raw : RawPage) :
    ((∃ e, fetch_listings_page raw = .error e)
       ↔ raw.ack ≠ "Success" ∧ raw.ack ≠ "Warning")
    ∧ (raw.ack ≠ "Success" ∧ raw.ack ≠ "Warning" →
        fetch_listings_page raw
          = .error (.protocol "GetSellerList"
              (raw.errors.map (fun e =>
                (e.code, if e.longMessage ≠ "" then e.longMessage else e.shortMessage)))))
    ∧ (raw.ack = "Success" ∨ raw.ack = "Warning" →
        fetch_listings_page raw
          = .ok (raw.items.foldl processRawItem [],
                 raw.totalPages.getD 1,
                 raw.hasMoreText = some "true")) := by
  have hch : ackAccepted raw.ack = true ↔ (raw.ack = "Success" ∨ raw.ack = "Warning") := by
    simp [ackAccepted]
  by_cases hack : ackAccepted raw.ack
  · have hor := hch.mp hack
    have hbranch : fetch_listings_page raw
        = .ok (raw.items.foldl processRawItem [],
               raw.totalPages.getD 1,
               raw.hasMoreText = some "true") := by
      simp [fetch_listings_page, hack]
    refine ⟨?_, ?_, fun _ => hbranch⟩
    · constructor
      · intro ⟨e, he⟩
        rw [hbranch] at he
        exact absurd he (by simp)
      · intro hne
        rcases hor with h | h
        · exact absurd h hne.1
        · exact absurd h hne.2
    · intro hne
      rcases hor with h | h
      · exact absurd h hne.1
      · exact absurd h hne.2
  · have hne : raw.ack ≠ "Success" ∧ raw.ack ≠ "Warning" := by
      rw [Bool.not_eq_true] at hack
      constructor
      · intro h
        rw [hch.mpr (Or.inl h)] at hack
        exact absurd hack (by simp)
      · intro h
        rw [hch.mpr (Or.inr h)] at hack
        exact absurd hack (by simp)
    have hbranch : fetch_listings_page raw
        = .error (.protocol "GetSellerList"
            (raw.errors.map (fun e =>
              (e.code, if e.longMessage ≠ "" then e.longMessage else e.shortMessage)))) := by
      simp [fetch_listings_page, hack]
    exact ⟨⟨fun _ => hne, fun _ => ⟨_, hbranch⟩⟩, fun _ => hbranch,
      fun hor => absurd (hch.mpr hor) (by simpa using hack)⟩

/-- Witness for C8: a `Failure` acknowledgment with one error entry
raises, carrying the entry's code and long message. -/
theorem C8_page_ack_validation_witness :
    fetch_listings_page ⟨"Failure", [⟨"931", "Auth token invalid", "Auth error"⟩], [], some 1, none⟩
      = .error (.protocol "GetSellerList" [("931", "Auth token invalid")]) := by
  have h := (C8_page_ack_validation
    ⟨"Failure", [⟨"931", "Auth token invalid", "Auth error"⟩], [], some 1, none⟩).2.1
    (by constructor <;> decide)
  simpa using h

/-! ## Run summary on success -/

lemma update_ebay_quantities_nil (remote : Remote) :
    update_ebay_quantities remote [] = (0, 0) := by
  simp [update_ebay_quantities, chunksOf4_nil]

lemma update_guard (remote : Remote) (u : List PendingUpdate) :
    (if u ≠ [] then update_ebay_quantities remote u else (0, 0))
      = update_ebay_quantities remote u := by
  by_cases h : u = []
  · simp [h, update_ebay_quantities_nil]
  · simp [h]

/-- C9: on a run where the feed download and the listing fetch both
succeed, `run_sync` reports `completed`, the number of fetched listings,
the updater's two counters over the generated updates, the number of
generated updates with `newQuantity = 0`, the diff step's unmatched
count, and no error message. -/
theorem C9_success_summary (feedDl : Except SyncError (List Row))
    (feedType : String) (columnMapping : Option Row) (server : Server)
    (remote : Remote) (rows : List Row) (listings : List Listing)
    (h1 : feedDl = .ok rows) (h2 : fetch_ebay_listings server = .ok listings) :
    run_sync feedDl feedType columnMapping server remote
      = ⟨"completed", listings.length,
         (update_ebay_quantities remote
           (diffStep listings (parseSupplierFeed feedType columnMapping rows)).1).1,
         (update_ebay_quantities remote
           (diffStep listings (parseSupplierFeed feedType columnMapping rows)).1).2,
         (diffStep listings (parseSupplierFeed feedType columnMapping rows)).1.countP
           (fun u => u.newQty == 0),
         (diffStep listings (parseSupplierFeed feedType columnMapping rows)).2.length,
         none⟩ := by
  subst h1
  have hguard := update_guard remote
    (diffStep listings (parseSupplierFeed feedType columnMapping rows)).1
  simp only [run_sync, run_sync_core, download_supplier_stock, h2]
  rw [← hguard]
  rfl

/-- Witness for C9 on a concrete feed, server and remote. -/
theorem C9_success_summary_witness :
    run_sync (.ok [[("NUMBER", "A"), ("UNITS", "0")]]) "azuregreen" none
        okServer okRemote
      = ⟨"completed", 1,
         (update_ebay_quantities okRemote
           (diffStep [⟨"I1", "A", 3⟩]
             (parseSupplierFeed "azuregreen" none [[("NUMBER", "A"), ("UNITS", "0")]])).1).1,
         (update_ebay_quantities okRemote
           (diffStep [⟨"I1", "A", 3⟩]
             (parseSupplierFeed "azuregreen" none [[("NUMBER", "A"), ("UNITS", "0")]])).1).2,
         (diffStep [⟨"I1", "A", 3⟩]
           (parseSupplierFeed "azuregreen" none [[("NUMBER", "A"), ("UNITS", "0")]])).1.countP
           (fun u => u.newQty == 0),
         (diffStep [⟨"I1", "A", 3⟩]
           (parseSupplierFeed "azuregreen" none [[("NUMBER", "A"), ("UNITS", "0")]])).2.length,
         none⟩ :=
  C9_success_summary (.ok [[("NUMBER", "A"), ("UNITS", "0")]]) "azuregreen" none
    okServer okRemote [[("NUMBER", "A"), ("UNITS", "0")]] [⟨"I1", "A", 3⟩] rfl rfl

/-! ## Unknown feed type -/

lemma except_ok_bind {α β : Type} (a : α) (f : α → Except SyncError β) :
    (Except.ok a >>= f) = f a := rfl

lemma diffStep_empty_stock (listings : List Listing) :
    diffStep listings [] = ([], listings.map Listing.sku) := by
  have h := diff_foldl [] listings [] []
  unfold diffStep
  rw [h]
  have h1 : listings.filterMap (updateFor []) = [] := by
    apply List.filterMap_eq_nil_iff.mpr
    intro l _
    simp [updateFor, dictGet?]
  have h2 : listings.filter (fun l => (dictGet? [] l.sku).isNone) = listings := by
    apply List.filter_eq_self.mpr
    intro l _
    simp [dictGet?]
  rw [h1, h2]
  simp

/-- C10: a feed type other than the three recognized ones — or `custom`
with a missing or empty column mapping — yields the empty stock map
without error, so a run whose download and fetch succeed completes with
zero updates and every fetched listing counted as an unmatched SKU. -/
theorem C10_unknown_feed_type (feedType : String) (cmOpt : Option Row)
    (hft : (feedType ≠ "azuregreen" ∧ feedType ≠ "diecast" ∧ feedType ≠ "custom")
         ∨ (feedType = "custom" ∧ (cmOpt = none ∨ cmOpt = some []))) :
    (∀ rows : List Row, parseSupplierFeed feedType cmOpt rows = [])
    ∧ (∀ rows : List Row, download_supplier_stock (.ok rows) feedType cmOpt = .ok [])
    ∧ (∀ (rows : List Row) (server : Server) (remote : Remote)
        (listings : List Listing),
        fetch_ebay_listings server = .ok listings →
        run_sync (.ok rows) feedType cmOpt server remote
          = ⟨"completed", listings.length, 0, 0, 0, listings.length, none⟩) := by
  have hparse : ∀ rows : List Row, parseSupplierFeed feedType cmOpt rows = [] := by
    intro rows
    rcases hft with ⟨h1, h2, h3⟩ | ⟨h1, h2⟩
    · simp [parseSupplierFeed, h1, h2, h3]
    · have htruthy : mappingTruthy cmOpt = false := by
        rcases h2 with h | h <;> simp [h, mappingTruthy]
      subst h1
      simp [parseSupplierFeed, htruthy]
  refine ⟨hparse, ?_, ?_⟩
  · intro rows
    simp [download_supplier_stock, hparse]
  · intro rows server remote listings h2
    simp only [run_sync, run_sync_core, download_supplier_stock, h2, hparse,
      pure, Except.pure, except_ok_bind]
    rw [diffStep_empty_stock]
    simp

/-- Witness for C10: a mistyped feed type over a real feed row, with
one fetched listing. -/
theorem C10_unknown_feed_type_witness :
    parseSupplierFeed "azuregren" none [[("NUMBER", "A"), ("UNITS", "5")]] = []
    ∧ run_sync (.ok [[("NUMBER", "A"), ("UNITS", "5")]]) "azuregren" none
        okServer okRemote
      = ⟨"completed", 1, 0, 0, 0, 1, none⟩ := by
  have h := C10_unknown_feed_type "azuregren" none
    (Or.inl (by refine ⟨?_, ?_, ?_⟩ <;> decide))
  exact ⟨h.1 [[("NUMBER", "A"), ("UNITS", "5")]],
    h.2.2 [[("NUMBER", "A"), ("UNITS", "5")]] okServer okRemote [⟨"I1", "A", 3⟩] rfl⟩

end DropSync
